import Mathlib

/-!
Verification of the ccache cache-engine excerpt: the `Util` byte-order
helpers, the incremental hash interface, and the Redis secondary storage
backend, shallowly embedded in Lean 4.

Machine integers are modelled as `Nat` with explicit `% 2 ^ w` where the
C code relies on fixed-width wraparound; byte buffers are `List Nat`
(each element a byte value); fallible C++ paths (exceptions, assertion
failures) are modelled with `Option`.
-/

namespace Util

/-- Embedding of `Util::big_endian_to_int` (Util.hpp): starting from
`value = 0`, repeatedly shift in the next buffer byte
(`value <<= 8; value |= buffer[i]`). Since `value` starts at zero and one
byte is shifted in per step, the shift never discards bits while reading
`sizeof(T)` bytes, so plain `Nat` arithmetic is exact. -/
def big_endian_to_int (buffer : List Nat) : Nat :=
  buffer.foldl (fun value b => value * 256 + b) 0

/-- Embedding of `Util::int_to_big_endian` (Util.hpp): the loop writes
`buffer[sizeof(T) - i - 1] = value & 0xFF` and then `value >>= 8`, so the
last byte of the buffer is `value % 256` and the bytes before it are the
encoding of `value / 256` over one fewer position. `w` is `sizeof(T)`. -/
def int_to_big_endian : Nat → Nat → List Nat
  | 0, _ => []
  | w + 1, value => int_to_big_endian w (value / 256) ++ [value % 256]

theorem int_to_big_endian_length (w value : Nat) :
    (int_to_big_endian w value).length = w := by
  induction w generalizing value with
  | zero => rfl
  | succ w ih => simp [int_to_big_endian, ih]

theorem big_endian_to_int_append_last (xs : List Nat) (b : Nat) :
    big_endian_to_int (xs ++ [b]) = big_endian_to_int xs * 256 + b := by
  simp [big_endian_to_int, List.foldl_append]

/-- Each byte of the big-endian encoding is the corresponding base-256
digit, most significant first. -/
theorem int_to_big_endian_map_range (w value : Nat) :
    int_to_big_endian w value =
      (List.range w).map (fun i => value / 256 ^ (w - 1 - i) % 256) := by
  induction w generalizing value with
  | zero => rfl
  | succ w ih =>
    rw [List.range_succ, List.map_append, List.map_singleton]
    simp only [int_to_big_endian]
    congr 1
    · rw [ih (value / 256)]
      refine List.map_congr_left ?_
      intro i hi
      have hiw : i < w := List.mem_range.mp hi
      have h1 : w + 1 - 1 - i = (w - 1 - i) + 1 := by omega
      rw [h1, pow_succ, Nat.mul_comm, ← Nat.div_div_eq_div_mul]
    · have h0 : w + 1 - 1 - w = 0 := by omega
      rw [h0, pow_zero, Nat.div_one]

/-- Reading back the big-endian encoding recovers any value below
`256 ^ w`. -/
theorem big_endian_round_trip_nat (w value : Nat) (h : value < 256 ^ w) :
    big_endian_to_int (int_to_big_endian w value) = value := by
  induction w generalizing value with
  | zero =>
    simp only [pow_zero, Nat.lt_one_iff] at h
    simp [int_to_big_endian, big_endian_to_int, h]
  | succ w ih =>
    rw [int_to_big_endian, big_endian_to_int_append_last,
      ih (value / 256) (by
        have : 256 ^ (w + 1) = 256 ^ w * 256 := pow_succ 256 w
        omega)]
    omega

/-- Re-encoding the value read from a `w`-byte buffer reproduces the
buffer exactly. -/
theorem int_to_big_endian_of_big_endian_to_int (buffer : List Nat)
    (hb : ∀ b ∈ buffer, b < 256) :
    int_to_big_endian buffer.length (big_endian_to_int buffer) = buffer := by
  induction buffer using List.reverseRecOn with
  | nil => rfl
  | append_singleton xs b ih =>
    have hb256 : b < 256 := hb b (by simp)
    rw [big_endian_to_int_append_last]
    have hlen : (xs ++ [b]).length = xs.length + 1 := by simp
    rw [hlen, int_to_big_endian]
    have hdiv : (big_endian_to_int xs * 256 + b) / 256 = big_endian_to_int xs := by
      omega
    have hmod : (big_endian_to_int xs * 256 + b) % 256 = b := by
      omega
    rw [hdiv, hmod, ih (fun x hx => hb x (by simp [hx]))]

/-- **C10**: `Util::int_to_big_endian` and `Util::big_endian_to_int`
are mutually inverse round-trips over `w = sizeof(T)` bytes (for every
fixed-width value, i.e. every `value < 256 ^ w`, and every `w`-byte
buffer), and the bytes are written most significant first: byte `i` of
the encoding is base-256 digit `w - 1 - i` of the value. -/
theorem big_endian_int_round_trip (w value : Nat) (buffer : List Nat)
    (hv : value < 256 ^ w) (hlen : buffer.length = w)
    (hb : ∀ b ∈ buffer, b < 256) :
    big_endian_to_int (int_to_big_endian w value) = value ∧
    int_to_big_endian w (big_endian_to_int buffer) = buffer ∧
    int_to_big_endian w value =
      (List.range w).map (fun i => value / 256 ^ (w - 1 - i) % 256) := by
  refine ⟨big_endian_round_trip_nat w value hv, ?_,
    int_to_big_endian_map_range w value⟩
  rw [← hlen]
  exact int_to_big_endian_of_big_endian_to_int buffer hb

/-- Witness for the C10 theorem at `w = 4`, the value `0x12345678` and
the buffer `[0x12, 0x34, 0x56, 0x78]`. -/
theorem big_endian_int_round_trip_witness :
    big_endian_to_int (int_to_big_endian 4 305419896) = 305419896 ∧
    int_to_big_endian 4 (big_endian_to_int [18, 52, 86, 120]) =
      [18, 52, 86, 120] ∧
    int_to_big_endian 4 305419896 =
      (List.range 4).map (fun i => 305419896 / 256 ^ (4 - 1 - i) % 256) :=
  big_endian_int_round_trip 4 305419896 [18, 52, 86, 120] (by decide)
    (by decide) (by decide)

/-- Hexadecimal digit character (lowercase). Modelled from the spec and
the header comment of `Util::format_base16` in Util.hpp (implementation
not part of the excerpt): a lowercase hexadecimal string, two characters
per byte. -/
def hex_digit (n : Nat) : Char :=
  if n < 10 then Char.ofNat (48 + n) else Char.ofNat (87 + n)

/-- Modelled from the spec: `Util::format_base16` formats a hexadecimal
string representing the bytes of `data`; the returned string is twice as
long as the input. Only the declaration and its comment are in the
excerpt (Util.hpp). -/
def format_base16 (data : List Nat) : String :=
  ⟨data.flatMap (fun b => [hex_digit (b % 256 / 16), hex_digit (b % 16)])⟩

end Util

/-!
### Incremental hash (hash.c / mdfour.c)

The excerpt contains the unit tests for the incremental hasher
(unittest/test_hash.c) but not hash.c / mdfour.c themselves. The hasher
is therefore modelled from the spec: a mutable `HashState` absorbing raw
bytes in any number of calls, backed by the MD4 block algorithm of
RFC 1320 (the md4 test vectors in test_hash.c pin the algorithm down),
buffering a partial block of at most 63 bytes and a running byte count.
`hash_result` finalizes a copy of the state, so the observable state
after the call equals the state before it, and renders the digest as
`<lowercase-hex>-<byte-count>` exactly as the expected strings of
test_hash.c show. All 32-bit arithmetic is `Nat` with explicit
`% 2 ^ 32`.
-/

namespace Hash

def M32 : Nat := 4294967296

def add32 (a b : Nat) : Nat := (a + b) % M32

/-- 32-bit rotate left of `x` (assumed below `2 ^ 32`) by `s` bits. -/
def rotl32 (x s : Nat) : Nat :=
  ((x <<< s) % M32) ||| (x >>> (32 - s))

/-- Round-1 mixing function `F(x,y,z) = (x AND y) OR ((NOT x) AND z)`. -/
def md4F (x y z : Nat) : Nat := (x &&& y) ||| ((x ^^^ 0xFFFFFFFF) &&& z)

/-- Round-2 mixing function `G(x,y,z) = (x AND y) OR (x AND z) OR (y AND z)`. -/
def md4G (x y z : Nat) : Nat := (x &&& y) ||| (x &&& z) ||| (y &&& z)

/-- Round-3 mixing function `H(x,y,z) = x XOR y XOR z`. -/
def md4H (x y z : Nat) : Nat := x ^^^ y ^^^ z

/-- Word `k` of a 64-byte block, little endian. -/
def leWord (block : List Nat) (k : Nat) : Nat :=
  block.getD (4 * k) 0 + 256 * block.getD (4 * k + 1) 0 +
    65536 * block.getD (4 * k + 2) 0 + 16777216 * block.getD (4 * k + 3) 0

/-- One MD4 step: mix one message word into register `a`, rotate, and
rotate the register roles for the next step. -/
def md4Step (f : Nat → Nat → Nat → Nat) (extra : Nat) (X : Nat → Nat)
    (st : Nat × Nat × Nat × Nat) (ks : Nat × Nat) : Nat × Nat × Nat × Nat :=
  match st with
  | (a, b, c, d) =>
    (d, rotl32 (add32 (add32 (add32 a (f b c d)) (X ks.1)) extra) ks.2, b, c)

/-- Word index and rotate amount for the 16 round-1 steps (RFC 1320). -/
def round1Ks : List (Nat × Nat) :=
  [(0,3),(1,7),(2,11),(3,19),(4,3),(5,7),(6,11),(7,19),
   (8,3),(9,7),(10,11),(11,19),(12,3),(13,7),(14,11),(15,19)]

/-- Word index and rotate amount for the 16 round-2 steps (RFC 1320). -/
def round2Ks : List (Nat × Nat) :=
  [(0,3),(4,5),(8,9),(12,13),(1,3),(5,5),(9,9),(13,13),
   (2,3),(6,5),(10,9),(14,13),(3,3),(7,5),(11,9),(15,13)]

/-- Word index and rotate amount for the 16 round-3 steps (RFC 1320). -/
def round3Ks : List (Nat × Nat) :=
  [(0,3),(8,9),(4,11),(12,15),(2,3),(10,9),(6,11),(14,15),
   (1,3),(9,9),(5,11),(13,15),(3,3),(11,9),(7,11),(15,15)]

/-- The MD4 compression function on one 64-byte block. -/
def md4Block (st : Nat × Nat × Nat × Nat) (block : List Nat) :
    Nat × Nat × Nat × Nat :=
  let X := leWord block
  let st3 := round3Ks.foldl (md4Step md4H 0x6ED9EBA1 X)
    (round2Ks.foldl (md4Step md4G 0x5A827999 X)
      (round1Ks.foldl (md4Step md4F 0 X) st))
  match st, st3 with
  | (a0, b0, c0, d0), (a, b, c, d) =>
    (add32 a0 a, add32 b0 b, add32 c0 c, add32 d0 d)

/-- Modelled from the spec: the `struct mdfour` hasher state behind
`struct hash` of hash.c — four 32-bit chaining registers, the total
number of absorbed bytes, and the buffered partial block (fewer than 64
bytes for every reachable state). -/
structure Mdfour where
  A : Nat
  B : Nat
  C : Nat
  D : Nat
  totalN : Nat
  tail : List Nat
deriving DecidableEq, Repr

/-- Modelled from the spec: `hash_init` — the RFC 1320 initial chaining
values, nothing absorbed yet. -/
def hash_init : Mdfour :=
  ⟨0x67452301, 0xEFCDAB89, 0x98BADCFE, 0x10325476, 0, []⟩

/-- Absorb a single byte: buffer it, and run the compression function
whenever a full 64-byte block has accumulated. -/
def absorbByte (m : Mdfour) (byte : Nat) : Mdfour :=
  let tail := m.tail ++ [byte]
  if tail.length = 64 then
    match md4Block (m.A, m.B, m.C, m.D) tail with
    | (a, b, c, d) => ⟨a, b, c, d, m.totalN + 1, []⟩
  else
    ⟨m.A, m.B, m.C, m.D, m.totalN + 1, tail⟩

/-- Modelled from the spec: `hash_buffer` — absorb a byte sequence into
the hasher, one byte at a time. -/
def hash_buffer (m : Mdfour) (data : List Nat) : Mdfour :=
  data.foldl absorbByte m

/-- `n` bytes of `v`, little endian. -/
def leBytes : Nat → Nat → List Nat
  | 0, _ => []
  | n + 1, v => v % 256 :: leBytes n (v / 256)

/-- RFC 1320 padding: a `0x80` byte, zeros up to 56 mod 64, then the
bit count as a little-endian 64-bit value. -/
def md4Pad (totalN : Nat) (tail : List Nat) : List Nat :=
  let padLen := if tail.length < 56 then 56 - tail.length else 120 - tail.length
  tail ++ 128 :: List.replicate (padLen - 1) 0 ++ leBytes 8 (totalN * 8)

/-- Finalize a copy of the state: pad the buffered tail to one or two
blocks, compress, and emit the sixteen digest bytes. The argument is
not modified (value semantics). -/
def md4Result (m : Mdfour) : List Nat :=
  let padded := md4Pad m.totalN m.tail
  let st1 := md4Block (m.A, m.B, m.C, m.D) (padded.take 64)
  let st2 := if padded.length ≤ 64 then st1 else md4Block st1 (padded.drop 64)
  match st2 with
  | (a, b, c, d) => leBytes 4 a ++ leBytes 4 b ++ leBytes 4 c ++ leBytes 4 d

/-- Modelled from the spec and test_hash.c: `hash_result` — finalize a
copy of the hasher (hash.c copies the `mdfour` struct before running the
final padding) and return `<digest-hex>-<total-byte-count>`, leaving the
hasher itself in the state it had before the call. The second component
is the observable state of the passed `struct hash *` after the call. -/
def hash_result (m : Mdfour) : String × Mdfour :=
  (Util.format_base16 (md4Result m) ++ "-" ++ toString m.totalN, m)

/-- Bytes of an ASCII string, as absorbed by `hash_string`. -/
def strBytes (s : String) : List Nat := s.data.map Char.toNat

/-- Modelled from the spec: `hash_string` — absorb the bytes of a
string (without a terminating NUL, as the `-<n>` counts of test_hash.c
show). -/
def hash_string (m : Mdfour) (s : String) : Mdfour :=
  hash_buffer m (strBytes s)

end Hash

set_option maxRecDepth 80000 in
/-- The model reproduces the four md4 test vectors of
`test_vectors_from_rfc_1320_should_be_correct` in unittest/test_hash.c. -/
theorem md4_rfc1320_test_vectors :
    (Hash.hash_result (Hash.hash_string Hash.hash_init "")).1 =
      "31d6cfe0d16ae931b73c59d7e0c089c0-0" ∧
    (Hash.hash_result (Hash.hash_string Hash.hash_init "a")).1 =
      "bde52cb31de33e46245e05fbdbd6fb24-1" ∧
    (Hash.hash_result (Hash.hash_string Hash.hash_init "message digest")).1 =
      "d9130a8164549fe818874806e1c7014b-14" ∧
    (Hash.hash_result (Hash.hash_string Hash.hash_init
      "12345678901234567890123456789012345678901234567890123456789012345678901234567890")).1 =
      "e33b4ddc9c38f2199c3e7b164fcc0536-80" := by
  refine ⟨by decide, by decide, by decide, by decide⟩

set_option maxRecDepth 80000 in
/-- The model reproduces `hash_result_should_not_alter_state` in
unittest/test_hash.c: finalize after "message", then absorb " digest",
and the final digest equals the digest of "message digest". -/
theorem md4_result_should_not_alter_state :
    (Hash.hash_result (Hash.hash_string
        (Hash.hash_result (Hash.hash_string Hash.hash_init "message")).2
        " digest")).1 =
      "d9130a8164549fe818874806e1c7014b-14" := by decide

set_option maxRecDepth 80000 in
/-- The model reproduces `hash_result_should_be_idempotent` in
unittest/test_hash.c: two finalize calls in a row return the same
string. -/
theorem md4_result_should_be_idempotent :
    (Hash.hash_result (Hash.hash_string Hash.hash_init "")).1 =
      "31d6cfe0d16ae931b73c59d7e0c089c0-0" ∧
    (Hash.hash_result
        (Hash.hash_result (Hash.hash_string Hash.hash_init "")).2).1 =
      "31d6cfe0d16ae931b73c59d7e0c089c0-0" := by
  refine ⟨by decide, by decide⟩

/-- **C4**: absorbing the concatenation `a ++ b` in one call yields the
very same hasher state as absorbing `a` and then `b` in two calls, and
hence the same finalized digest string: the digest depends only on the
total byte sequence, not on call chunking. -/
theorem hash_absorb_chunking (m : Hash.Mdfour) (a b : List Nat) :
    Hash.hash_buffer m (a ++ b) =
      Hash.hash_buffer (Hash.hash_buffer m a) b ∧
    (Hash.hash_result (Hash.hash_buffer Hash.hash_init (a ++ b))).1 =
      (Hash.hash_result
        (Hash.hash_buffer (Hash.hash_buffer Hash.hash_init a) b)).1 := by
  have h : ∀ (m0 : Hash.Mdfour),
      Hash.hash_buffer m0 (a ++ b) =
        Hash.hash_buffer (Hash.hash_buffer m0 a) b := fun m0 =>
    List.foldl_append Hash.absorbByte m0 a b
  exact ⟨h m, by rw [h Hash.hash_init]⟩

/-- **C5**: `hash_result` is idempotent and does not perturb the hasher:
finalizing twice without a reset returns the same digest string, the
state after a finalize equals the state before it, and bytes absorbed
after a finalize combine with the earlier bytes exactly as if the
finalize had never happened. -/
theorem hash_result_idempotent_nonperturbing (m : Hash.Mdfour)
    (extra : List Nat) :
    (Hash.hash_result (Hash.hash_result m).2).1 = (Hash.hash_result m).1 ∧
    (Hash.hash_result m).2 = m ∧
    Hash.hash_buffer (Hash.hash_result m).2 extra =
      Hash.hash_buffer m extra := ⟨rfl, rfl, rfl⟩

/-!
### RedisStorage (storage/secondary/RedisStorage.cpp)

The backend state is the member variables of the `RedisStorage` class;
the behaviour of the external hiredis library during one operation
(reconnect outcome, fresh-connect outcome, command replies) is passed in
explicitly as a `ConnectEnv` plus per-command `Reply` values. A `Reply`
of `none` models `redisCommand` returning a null pointer. Operations
also return the list of logical commands issued to the backend, so that
statements about which commands were sent (and with which key) can be
made. `Option` on the overall result models abnormal termination: the
`ASSERT` on the URL scheme, and an uncaught `std::stoi` exception on a
malformed port. -/

/-- Embedding of `Util::starts_with` (Util.hpp): `prefix` is a string
prefix of `string`. -/
def Util.starts_with (string pre : String) : Bool :=
  pre.data.isPrefixOf string.data

/-- `struct timeval` as filled in by `milliseconds_to_timeval`. -/
structure Timeval where
  tv_sec : Int
  tv_usec : Int
deriving DecidableEq, Repr

/-- Embedding of `std::stoi`: skip whitespace, read an optional sign and
then as many decimal digits as possible; `none` models the
`std::invalid_argument` exception when no digits are found. -/
def stoi (s : String) : Option Int :=
  let cs := s.data.dropWhile Char.isWhitespace
  let signAndRest : Bool × List Char :=
    match cs with
    | '-' :: rest => (true, rest)
    | '+' :: rest => (false, rest)
    | _ => (false, cs)
  match signAndRest with
  | (neg, cs2) =>
    let ds := cs2.takeWhile Char.isDigit
    if ds.isEmpty then none
    else
      let v : Nat := ds.foldl (fun a c => a * 10 + (c.toNat - 48)) 0
      some (if neg then -(v : Int) else (v : Int))

/-- Embedding of `milliseconds_to_timeval` (RedisStorage.cpp): `none`
models the exception thrown by `std::stoi` on a malformed value. -/
def milliseconds_to_timeval (msec : String) : Option Timeval :=
  (stoi msec).map fun ms => ⟨ms.tdiv 1000, ms.tmod 1000 * 1000⟩

/-- The `AttributeMap` (string to string); `std::map::find` is modelled
as first-match lookup. -/
abbrev AttributeMap := List (String × String)

def findAttrib (attributes : AttributeMap) (key : String) : Option String :=
  match attributes with
  | [] => none
  | (k, v) :: rest => if k = key then some v else findAttrib rest key

/-- Embedding of `parse_connect_timeout` (RedisStorage.cpp). The outer
`Option` models the `std::stoi` exception; the inner one is the absent
attribute. -/
def parse_connect_timeout (attributes : AttributeMap) :
    Option (Option Timeval) :=
  match findAttrib attributes "connect-timeout" with
  | none => some none
  | some v => (milliseconds_to_timeval v).map some

/-- Embedding of `parse_operation_timeout` (RedisStorage.cpp). -/
def parse_operation_timeout (attributes : AttributeMap) :
    Option (Option Timeval) :=
  match findAttrib attributes "operation-timeout" with
  | none => some none
  | some v => (milliseconds_to_timeval v).map some

/-- Embedding of `parse_username` (RedisStorage.cpp). -/
def parse_username (attributes : AttributeMap) : Option String :=
  findAttrib attributes "username"

/-- Embedding of `parse_password` (RedisStorage.cpp). -/
def parse_password (attributes : AttributeMap) : Option String :=
  findAttrib attributes "password"

/-- The member variables of `class RedisStorage`; `m_context` records
whether the hiredis context pointer is non-null. -/
structure RedisStorage where
  m_url : String
  m_connect_timeout : Option Timeval
  m_operation_timeout : Option Timeval
  m_username : Option String
  m_password : Option String
  m_context : Bool
  m_connected : Bool
  m_invalid : Bool
deriving DecidableEq, Repr

/-- Embedding of the `RedisStorage::RedisStorage` constructor: store the
URL and the parsed attributes, initialize `m_context = nullptr`,
`m_connected = false`, `m_invalid = false`. `none` models the
`std::stoi` exception escaping the constructor on a malformed timeout
attribute value. No other validation happens here. -/
def RedisStorage.construct (url : String) (attributes : AttributeMap) :
    Option RedisStorage := do
  let ct ← parse_connect_timeout attributes
  let ot ← parse_operation_timeout attributes
  some { m_url := url, m_connect_timeout := ct, m_operation_timeout := ot,
         m_username := parse_username attributes,
         m_password := parse_password attributes,
         m_context := false, m_connected := false, m_invalid := false }

/-- The hiredis reply variants the code inspects (`REDIS_REPLY_ERROR`,
`REDIS_REPLY_STRING`, `REDIS_REPLY_NIL`, `REDIS_REPLY_INTEGER`,
`REDIS_REPLY_STATUS`, anything else). -/
inductive Reply where
  | replyError (msg : String)
  | replyString (value : String)
  | replyNil
  | replyInteger (n : Int)
  | replyStatus
  | replyOther
deriving DecidableEq, Repr

/-- The logical commands an operation sends to the backend. -/
inductive Cmd where
  | authCmd
  | getCmd (key : String)
  | existsCmd (key : String)
  | setCmd (key : String) (value : String)
  | delCmd (key : String)
deriving DecidableEq, Repr

/-- The key argument carried by a command, if any. -/
def Cmd.keyOf : Cmd → Option String
  | authCmd => none
  | getCmd k => some k
  | existsCmd k => some k
  | setCmd k _ => some k
  | delCmd k => some k

/-- Behaviour of the external world during one `connect()` call:
whether `redisReconnect` succeeds, the outcome of a fresh
`redisConnect*` call (`none` is a null context, `some e` a context whose
`err` flag is `e`), and the reply to an `AUTH` command (`none` is a null
reply). -/
structure ConnectEnv where
  reconnect_ok : Bool
  connect_result : Option Bool
  auth_reply : Option Reply
deriving DecidableEq, Repr

/-- The host/port/sock strings `RedisStorage::connect` computes from
the URL suffix. -/
structure UrlParts where
  host : String
  port : String
  sock : String
deriving DecidableEq, Repr

/-- Split a character list at its LAST colon, as the reverse find
`std::find(suffix.rbegin(), suffix.rend(), ':')` does; `none` when no
colon occurs. -/
def splitLastColon (cs : List Char) : Option (List Char × List Char) :=
  let rev := cs.reverse
  match rev.dropWhile (fun c => c ≠ ':') with
  | [] => none
  | _ :: before => some (before.reverse, (rev.takeWhile (fun c => c ≠ ':')).reverse)

/-- The URL-suffix split of `RedisStorage::connect`: with no colon, a
leading slash makes the whole suffix a socket path and anything else
(also the empty suffix, whose `suffix[0]` reads the terminating NUL) a
host; with a colon, the parts before and after the last colon are host
and port. -/
def parseSuffix (suffix : List Char) : UrlParts :=
  match splitLastColon suffix with
  | none =>
    if suffix.head? = some '/' then ⟨"", "", ⟨suffix⟩⟩
    else ⟨⟨suffix⟩, "", ""⟩
  | some (pre, post) => ⟨⟨pre⟩, ⟨post⟩, ""⟩

/-- The part of `RedisStorage::connect` after host/sock selection: check
the fresh context, mark connected, and authenticate when a password is
configured. On a null or errored context, and on a null or error AUTH
reply, `m_invalid` is set and `false` returned. Note that the code sets
`m_connected = true` before authenticating and never resets it when
authentication fails. -/
def RedisStorage.afterConnect (s : RedisStorage) (env : ConnectEnv) :
    Bool × RedisStorage × List Cmd :=
  match env.connect_result with
  | none => (false, { s with m_context := false, m_invalid := true }, [])
  | some ctxErr =>
    if ctxErr then
      (false, { s with m_context := true, m_invalid := true }, [])
    else
      let s2 := { s with m_context := true, m_connected := true }
      match s2.m_password with
      | none => (true, s2, [])
      | some _ =>
        match env.auth_reply with
        | none => (false, { s2 with m_invalid := true }, [Cmd.authCmd])
        | some (Reply.replyError _) =>
          (false, { s2 with m_invalid := true }, [Cmd.authCmd])
        | some _ => (true, s2, [Cmd.authCmd])

/-- The fresh-connection part of `RedisStorage::connect`: assert the
`redis://` scheme, split the suffix on its last colon into host/port or
a socket path, and dispatch. An empty host and socket is the
`Redis invalid url` branch: `m_invalid` is set and `false` returned.
`none` models the `ASSERT` failing or `std::stoi(port)` throwing. -/
def RedisStorage.connectFresh (s : RedisStorage) (env : ConnectEnv) :
    Option (Bool × RedisStorage × List Cmd) :=
  if Util.starts_with s.m_url "redis://" then
    let parts := parseSuffix (s.m_url.data.drop 8)
    if parts.host ≠ "" then
      if parts.port = "" then some (s.afterConnect env)
      else
        match stoi parts.port with
        | none => none
        | some _ => some (s.afterConnect env)
    else if parts.sock ≠ "" then some (s.afterConnect env)
    else some (false, { s with m_invalid := true }, [])
  else none

/-- Embedding of `RedisStorage::connect`: an already-connected instance
returns `true` at once; an invalid one returns `false` at once; a kept
context is first offered to `redisReconnect` and freed when that fails,
after which a fresh connection is attempted. -/
def RedisStorage.connect (s : RedisStorage) (env : ConnectEnv) :
    Option (Bool × RedisStorage × List Cmd) :=
  if s.m_connected then some (true, s, [])
  else if s.m_invalid then some (false, s, [])
  else if s.m_context then
    if env.reconnect_ok then some (true, { s with m_connected := true }, [])
    else RedisStorage.connectFresh { s with m_context := false } env
  else RedisStorage.connectFresh s env

/-- The `Digest` key type: a fixed-length byte array (Digest.hpp is not
part of the excerpt). -/
structure Digest where
  bytes : List Nat
deriving DecidableEq, Repr

/-- Modelled from the spec: `Digest::to_string` is the canonical
lowercase hexadecimal string form of the digest bytes (Digest.hpp is not
part of the excerpt; the spec fixes a canonical lowercase-hex form). -/
def Digest.to_string (d : Digest) : String :=
  Util.format_base16 d.bytes

/-- Embedding of `RedisStorage::get_key_string`:
`FMT("{}:{}", prefix, digest.to_string())` with the namespace "ccache". -/
def RedisStorage.get_key_string (_s : RedisStorage) (digest : Digest) :
    String :=
  let ns := "ccache"
  ns ++ ":" ++ digest.to_string

/-- The three-way result of `RedisStorage::get`
(`nonstd::expected<nonstd::optional<std::string>, Error>`). -/
inductive GetOutcome where
  | found (value : String)
  | notFound
  | backendError
deriving DecidableEq, Repr

/-- The result of `RedisStorage::put` / `remove`
(`nonstd::expected<bool, Error>`). -/
inductive OpOutcome where
  | ok (stored : Bool)
  | backendError
deriving DecidableEq, Repr

/-- Embedding of `RedisStorage::get`. `reply` is the reply to the GET
command (`none` for a null reply). The local `bool found = false` is
initialized; the local `bool missing` is NOT initialized in the source,
so its indeterminate initial value is the parameter `missing0`: every
branch of the reply inspection that does not assign `missing` leaves it
at `missing0`. -/
def RedisStorage.getBody (digest : Digest) (reply : Option Reply)
    (missing0 : Bool) : Bool × RedisStorage × List Cmd →
    GetOutcome × RedisStorage × List Cmd
  -- The argument is the result triple of connect(); the body is the
  -- remainder of RedisStorage::get after the connect() check.
  | (ok, s1, tr) =>
    if ok then
      let key := s1.get_key_string digest
      let tr2 := tr ++ [Cmd.getCmd key]
      let fmv : Bool × Bool × String :=
        match reply with
        | none => (false, missing0, "")
        | some (Reply.replyError _) => (false, missing0, "")
        | some (Reply.replyString v) => (true, missing0, v)
        | some Reply.replyNil => (false, true, "")
        | some _ => (false, missing0, "")
      match fmv with
      | (found, missing, value) =>
        if found then (GetOutcome.found value, s1, tr2)
        else if missing then (GetOutcome.notFound, s1, tr2)
        else (GetOutcome.backendError, s1, tr2)
    else (GetOutcome.backendError, s1, tr)

def RedisStorage.get (s : RedisStorage) (digest : Digest) (env : ConnectEnv)
    (reply : Option Reply) (missing0 : Bool) :
    Option (GetOutcome × RedisStorage × List Cmd) :=
  (s.connect env).map (RedisStorage.getBody digest reply missing0)

/-- The SET part of `RedisStorage::put`: `stored` is true exactly on a
`REDIS_REPLY_STATUS` reply; anything else (null reply, error reply, or
an unexpected reply type) yields a backend error. -/
def RedisStorage.putSet (s1 : RedisStorage) (key value : String)
    (set_reply : Option Reply) (tr : List Cmd) :
    OpOutcome × RedisStorage × List Cmd :=
  let tr2 := tr ++ [Cmd.setCmd key value]
  match set_reply with
  | some Reply.replyStatus => (OpOutcome.ok true, s1, tr2)
  | _ => (OpOutcome.backendError, s1, tr2)

/-- The `count` local of `RedisStorage::put`: initialized to 0 and
overwritten only by a `REDIS_REPLY_INTEGER` reply to EXISTS (a null,
error or otherwise-typed reply leaves it 0). -/
def existsCount (exists_reply : Option Reply) : Int :=
  match exists_reply with
  | some (Reply.replyInteger n) => n
  | _ => 0

/-- Embedding of `RedisStorage::put`. With `only_if_missing`, an EXISTS
command is sent first; a positive count returns `false` without sending
SET. -/
def RedisStorage.putBody (digest : Digest) (value : String)
    (only_if_missing : Bool) (exists_reply set_reply : Option Reply) :
    Bool × RedisStorage × List Cmd → OpOutcome × RedisStorage × List Cmd
  -- The argument is the result triple of connect(); the body is the
  -- remainder of RedisStorage::put after the connect() check.
  | (ok, s1, tr) =>
    if ok then
      let key := s1.get_key_string digest
      if only_if_missing then
        let tr2 := tr ++ [Cmd.existsCmd key]
        if 0 < existsCount exists_reply then (OpOutcome.ok false, s1, tr2)
        else RedisStorage.putSet s1 key value set_reply tr2
      else RedisStorage.putSet s1 key value set_reply tr
    else (OpOutcome.backendError, s1, tr)

def RedisStorage.put (s : RedisStorage) (digest : Digest) (value : String)
    (only_if_missing : Bool) (env : ConnectEnv)
    (exists_reply set_reply : Option Reply) :
    Option (OpOutcome × RedisStorage × List Cmd) :=
  (s.connect env).map
    (RedisStorage.putBody digest value only_if_missing exists_reply set_reply)

/-- Embedding of `RedisStorage::remove`. As in `get`, the local
`bool removed = false` is initialized but `bool missing` is NOT
initialized in the source: `missing0` is its indeterminate initial
value. A positive DEL count is a removal; a zero count sets `missing`. -/
def RedisStorage.removeBody (digest : Digest) (reply : Option Reply)
    (missing0 : Bool) : Bool × RedisStorage × List Cmd →
    OpOutcome × RedisStorage × List Cmd
  -- The argument is the result triple of connect(); the body is the
  -- remainder of RedisStorage::remove after the connect() check.
  | (ok, s1, tr) =>
    if ok then
      let key := s1.get_key_string digest
      let tr2 := tr ++ [Cmd.delCmd key]
      let rm : Bool × Bool :=
        match reply with
        | some (Reply.replyInteger n) =>
          if 0 < n then (true, missing0) else (false, true)
        | _ => (false, missing0)
      match rm with
      | (removed, missing) =>
        if removed then (OpOutcome.ok true, s1, tr2)
        else if missing then (OpOutcome.ok false, s1, tr2)
        else (OpOutcome.backendError, s1, tr2)
    else (OpOutcome.backendError, s1, tr)

def RedisStorage.remove (s : RedisStorage) (digest : Digest)
    (env : ConnectEnv) (reply : Option Reply) (missing0 : Bool) :
    Option (OpOutcome × RedisStorage × List Cmd) :=
  (s.connect env).map (RedisStorage.removeBody digest reply missing0)

/-!
### Concrete sample states and environments

Used by the counterexamples and witnesses below. `connectedRedis` and
`invalidRedis` are reachable states (see
`redis_connected_state_reachable` and the C7 counterexample). -/

/-- A passwordless instance after a successful `connect()`. -/
def connectedRedis : RedisStorage :=
  { m_url := "redis://localhost:6379", m_connect_timeout := none,
    m_operation_timeout := none, m_username := none, m_password := none,
    m_context := true, m_connected := true, m_invalid := false }

/-- A freshly constructed passwordless instance. -/
def freshRedis : RedisStorage :=
  { m_url := "redis://localhost:6379", m_connect_timeout := none,
    m_operation_timeout := none, m_username := none, m_password := none,
    m_context := false, m_connected := false, m_invalid := false }

/-- A freshly constructed instance whose URL has neither host nor
socket (`redis://:`). -/
def badUrlRedis : RedisStorage :=
  { m_url := "redis://:", m_connect_timeout := none,
    m_operation_timeout := none, m_username := none, m_password := none,
    m_context := false, m_connected := false, m_invalid := false }

/-- `badUrlRedis` after its first operation marked it invalid. -/
def invalidRedis : RedisStorage :=
  { badUrlRedis with m_invalid := true }

/-- A freshly constructed instance configured with a password. -/
def passwordRedis : RedisStorage :=
  { m_url := "redis://localhost:6379", m_connect_timeout := none,
    m_operation_timeout := none, m_username := none,
    m_password := some "pw", m_context := false, m_connected := false,
    m_invalid := false }

/-- `passwordRedis` after a connection whose AUTH failed: note
`m_connected` is still true. -/
def authFailedRedis : RedisStorage :=
  { passwordRedis with
    m_context := true, m_connected := true, m_invalid := true }

/-- Environment where the TCP connection succeeds and no reconnection
is available. -/
def benignEnv : ConnectEnv :=
  { reconnect_ok := false, connect_result := some false, auth_reply := none }

/-- Environment where the TCP connection succeeds but AUTH is answered
with an error reply. -/
def authFailEnv : ConnectEnv :=
  { reconnect_ok := false, connect_result := some false,
    auth_reply := some (Reply.replyError "WRONGPASS") }

/-- Environment where the fresh connection attempt yields a context
with its error flag set (an ordinary failed connection attempt, e.g.
connection refused). -/
def ctxErrEnv : ConnectEnv :=
  { reconnect_ok := false, connect_result := some true, auth_reply := none }

/-- A two-byte digest whose canonical hex form is `12ab`. -/
def sampleDigest : Digest := ⟨[18, 171]⟩

/-- `connectedRedis` is the state an instance reaches after construction
and one successful passwordless `connect()`. -/
theorem redis_connected_state_reachable :
    (RedisStorage.construct "redis://localhost:6379" []).bind
      (fun st => st.connect benignEnv) = some (true, connectedRedis, []) := by
  decide

/-!
### Claim theorems for the Redis backend
-/

/-- **C1** (code bug): `RedisStorage::get` and `remove` leave their
local `bool missing` uninitialized; on a null or error reply the
outcome is decided by that indeterminate value. When it reads as true,
a null GET reply and an error GET reply return not-found, and a null
DEL reply returns not-found (`false`), contradicting the three-way
contract that a null or error reply is always a backend error; when it
reads as false the same calls return backend-error. -/
theorem redis_get_null_reply_outcome_depends_on_uninitialized_local :
    connectedRedis.get sampleDigest benignEnv none true =
      some (GetOutcome.notFound, connectedRedis, [Cmd.getCmd "ccache:12ab"]) ∧
    connectedRedis.get sampleDigest benignEnv
        (some (Reply.replyError "ERR")) true =
      some (GetOutcome.notFound, connectedRedis, [Cmd.getCmd "ccache:12ab"]) ∧
    connectedRedis.get sampleDigest benignEnv none false =
      some (GetOutcome.backendError, connectedRedis,
        [Cmd.getCmd "ccache:12ab"]) ∧
    connectedRedis.remove sampleDigest benignEnv none true =
      some (OpOutcome.ok false, connectedRedis, [Cmd.delCmd "ccache:12ab"]) := by
  refine ⟨by decide, by decide, by decide, by decide⟩

/-- **C2** (counterexample): the claim that a set `m_invalid` makes
every subsequent `connect()` return false fails. A failed AUTH sets
`m_invalid` but leaves `m_connected` true, so the very next `connect()`
call short-circuits on `m_connected` and returns true — even in an
environment in which every connection attempt would fail. -/
theorem redis_invalid_not_terminal_counterexample :
    RedisStorage.construct "redis://localhost:6379" [("password", "pw")] =
      some passwordRedis ∧
    passwordRedis.connect authFailEnv =
      some (false, authFailedRedis, [Cmd.authCmd]) ∧
    authFailedRedis.m_invalid = true ∧
    authFailedRedis.connect ctxErrEnv = some (true, authFailedRedis, []) := by
  refine ⟨by decide, by decide, rfl, by decide⟩

/-- **C2** (amended): when `m_invalid` is set while `m_connected` is
false — which covers the unparsable-URL and failed-connection paths,
though not the failed-AUTH path — the state is terminal: `connect()`
returns false with the state unchanged and nothing sent, and every
`get`, `put`, `remove` returns backend-error. After a failed AUTH the
instance instead stays flagged connected, and `connect()` keeps
returning true. -/
theorem redis_invalid_disconnected_is_terminal (s : RedisStorage)
    (env : ConnectEnv) (hinv : s.m_invalid = true)
    (hconn : s.m_connected = false) :
    s.connect env = some (false, s, []) ∧
    (∀ d reply m0, s.get d env reply m0 =
      some (GetOutcome.backendError, s, [])) ∧
    (∀ d v oim er sr, s.put d v oim env er sr =
      some (OpOutcome.backendError, s, [])) ∧
    (∀ d reply m0, s.remove d env reply m0 =
      some (OpOutcome.backendError, s, [])) ∧
    (∀ (s2 : RedisStorage) (env2 : ConnectEnv), s2.m_invalid = true →
      s2.m_connected = true → s2.connect env2 = some (true, s2, [])) := by
  have hc : s.connect env = some (false, s, []) := by
    simp [RedisStorage.connect, hinv, hconn]
  refine ⟨hc, ?_, ?_, ?_, ?_⟩
  · intro d reply m0
    simp [RedisStorage.get, RedisStorage.getBody, hc]
  · intro d v oim er sr
    simp [RedisStorage.put, RedisStorage.putBody, hc]
  · intro d reply m0
    simp [RedisStorage.remove, RedisStorage.removeBody, hc]
  · intro s2 env2 _ h2
    simp [RedisStorage.connect, h2]

/-- Witness for the amended C2 theorem at a concrete invalid,
disconnected state. -/
theorem redis_invalid_disconnected_is_terminal_witness :
    invalidRedis.connect benignEnv = some (false, invalidRedis, []) ∧
    invalidRedis.get sampleDigest benignEnv none false =
      some (GetOutcome.backendError, invalidRedis, []) :=
  have h := redis_invalid_disconnected_is_terminal invalidRedis benignEnv
    rfl rfl
  ⟨h.1, h.2.1 sampleDigest none false⟩

/-- The URL suffix yields neither a host nor a socket path — the
`Redis invalid url` branch of `connect()`. -/
def urlNoTarget (url : String) : Bool :=
  ((parseSuffix (url.data.drop 8)).host == "") &&
    ((parseSuffix (url.data.drop 8)).sock == "")

/-- The fresh connection attempt produced a null context or a context
with its error flag set. -/
def ctxFailed (env : ConnectEnv) : Bool :=
  match env.connect_result with
  | some false => false
  | _ => true

/-- The AUTH command was answered with a null reply or an error reply. -/
def authFailed (env : ConnectEnv) : Bool :=
  match env.auth_reply with
  | none => true
  | some (Reply.replyError _) => true
  | some _ => false

theorem afterConnect_invalid (s : RedisStorage) (env : ConnectEnv)
    (hinv : (s.afterConnect env).2.1.m_invalid = true) :
    s.m_invalid = true ∨ ctxFailed env = true ∨
      (s.m_password.isSome = true ∧ authFailed env = true) := by
  obtain ⟨url, ct, ot, un, pw, ctx, conn, inv⟩ := s
  obtain ⟨rok, cr, ar⟩ := env
  rcases cr with _ | e
  · exact Or.inr (Or.inl rfl)
  · cases e with
    | true => exact Or.inr (Or.inl rfl)
    | false =>
      cases pw with
      | none => exact Or.inl hinv
      | some p =>
        rcases ar with _ | r
        · exact Or.inr (Or.inr ⟨rfl, rfl⟩)
        · cases r with
          | replyError msg => exact Or.inr (Or.inr ⟨rfl, rfl⟩)
          | replyString v => exact Or.inl hinv
          | replyNil => exact Or.inl hinv
          | replyInteger n => exact Or.inl hinv
          | replyStatus => exact Or.inl hinv
          | replyOther => exact Or.inl hinv

theorem afterConnect_trace (s : RedisStorage) (env : ConnectEnv) :
    (s.afterConnect env).2.2 = [] ∨ (s.afterConnect env).2.2 = [Cmd.authCmd] := by
  obtain ⟨url, ct, ot, un, pw, ctx, conn, inv⟩ := s
  obtain ⟨rok, cr, ar⟩ := env
  rcases cr with _ | e
  · exact Or.inl rfl
  · cases e with
    | true => exact Or.inl rfl
    | false =>
      cases pw with
      | none => exact Or.inl rfl
      | some p =>
        rcases ar with _ | r
        · exact Or.inr rfl
        · cases r <;> exact Or.inr rfl

theorem connectFresh_invalid (s : RedisStorage) (env : ConnectEnv)
    (b : Bool) (s2 : RedisStorage) (tr : List Cmd)
    (h : s.connectFresh env = some (b, s2, tr))
    (hinv : s2.m_invalid = true) :
    s.m_invalid = true ∨ urlNoTarget s.m_url = true ∨ ctxFailed env = true ∨
      (s.m_password.isSome = true ∧ authFailed env = true) := by
  simp only [RedisStorage.connectFresh] at h
  have hafter : s.afterConnect env = (b, s2, tr) →
      s.m_invalid = true ∨ urlNoTarget s.m_url = true ∨ ctxFailed env = true ∨
        (s.m_password.isSome = true ∧ authFailed env = true) := by
    intro heq
    have h21 : (s.afterConnect env).2.1 = s2 := by rw [heq]
    rcases afterConnect_invalid s env (by rw [h21]; exact hinv) with h1 | h1 | h1
    · exact Or.inl h1
    · exact Or.inr (Or.inr (Or.inl h1))
    · exact Or.inr (Or.inr (Or.inr h1))
  split at h
  · split at h
    · split at h
      · exact hafter (by simpa using h)
      · split at h
        · exact Option.noConfusion h
        · exact hafter (by simpa using h)
    · split at h
      · exact hafter (by simpa using h)
      · rename_i hhost hsock
        simp only [ne_eq, not_not] at hhost hsock
        have hs2 : s2 = { s with m_invalid := true } := by
          simp only [Option.some.injEq, Prod.mk.injEq] at h
          exact h.2.1.symm
        refine Or.inr (Or.inl ?_)
        simp [urlNoTarget, hhost, hsock]
  · exact Option.noConfusion h

theorem connectFresh_trace (s : RedisStorage) (env : ConnectEnv)
    (b : Bool) (s2 : RedisStorage) (tr : List Cmd)
    (h : s.connectFresh env = some (b, s2, tr)) :
    tr = [] ∨ tr = [Cmd.authCmd] := by
  simp only [RedisStorage.connectFresh] at h
  have hafter : s.afterConnect env = (b, s2, tr) →
      tr = [] ∨ tr = [Cmd.authCmd] := by
    intro heq
    have h22 : (s.afterConnect env).2.2 = tr := by rw [heq]
    rw [← h22]
    exact afterConnect_trace s env
  split at h
  · split at h
    · split at h
      · exact hafter (by simpa using h)
      · split at h
        · exact Option.noConfusion h
        · exact hafter (by simpa using h)
    · split at h
      · exact hafter (by simpa using h)
      · simp only [Option.some.injEq, Prod.mk.injEq] at h
        exact Or.inl h.2.2.symm
  · exact Option.noConfusion h

theorem connect_trace (s : RedisStorage) (env : ConnectEnv)
    (b : Bool) (s2 : RedisStorage) (tr : List Cmd)
    (h : s.connect env = some (b, s2, tr)) :
    tr = [] ∨ tr = [Cmd.authCmd] := by
  unfold RedisStorage.connect at h
  split at h
  · simp only [Option.some.injEq, Prod.mk.injEq] at h
    exact Or.inl h.2.2.symm
  · split at h
    · simp only [Option.some.injEq, Prod.mk.injEq] at h
      exact Or.inl h.2.2.symm
    · split at h
      · split at h
        · simp only [Option.some.injEq, Prod.mk.injEq] at h
          exact Or.inl h.2.2.symm
        · exact connectFresh_trace _ env b s2 tr h
      · exact connectFresh_trace _ env b s2 tr h

/-- Every command a `connect()` call sends carries no key (at most an
AUTH is sent). -/
theorem connect_trace_keyOf (s : RedisStorage) (env : ConnectEnv)
    (b : Bool) (s2 : RedisStorage) (tr : List Cmd)
    (h : s.connect env = some (b, s2, tr)) :
    ∀ c ∈ tr, c.keyOf = none := by
  rcases connect_trace s env b s2 tr h with h1 | h1 <;> subst h1 <;>
    simp [Cmd.keyOf]

/-- `freshRedis` after a failed fresh connection attempt: terminal. -/
def ctxErrRedis : RedisStorage :=
  { freshRedis with m_context := true, m_invalid := true }

/-- **C3** (counterexample): an ordinary failed connection attempt (a
context whose error flag is set, e.g. connection refused) on a
perfectly parsable URL, with no authentication configured, sets
`m_invalid` — the terminal state — rather than leaving the instance
disconnected with retry permitted: the subsequent `connect()` returns
false even in an environment in which connecting would succeed. -/
theorem redis_failed_connect_attempt_sets_invalid :
    RedisStorage.construct "redis://localhost:6379" [] = some freshRedis ∧
    (parseSuffix ("redis://localhost:6379".data.drop 8)).host = "localhost" ∧
    freshRedis.m_password = none ∧
    freshRedis.connect ctxErrEnv = some (false, ctxErrRedis, []) ∧
    ctxErrRedis.m_invalid = true ∧
    ctxErrRedis.connect benignEnv = some (false, ctxErrRedis, []) := by
  refine ⟨by decide, by decide, rfl, by decide, rfl, by decide⟩

/-- **C3** (amended): `connect()` leaves the Invalid state set only
because of an unparsable URL (no host, no socket), a failed fresh
connection attempt (null or errored context), or failed authentication
(null or error AUTH reply) — or because the instance was already
invalid. A failed `redisReconnect` of a kept context alone does not
enter Invalid: the stale context is freed and a fresh connection is
attempted within the same call. -/
theorem redis_invalid_causes (s : RedisStorage) (env : ConnectEnv) :
    (∀ b s2 tr, s.connect env = some (b, s2, tr) → s2.m_invalid = true →
      s.m_invalid = true ∨ urlNoTarget s.m_url = true ∨
        ctxFailed env = true ∨
        (s.m_password.isSome = true ∧ authFailed env = true)) ∧
    (s.m_connected = false → s.m_invalid = false → s.m_context = true →
      env.reconnect_ok = false →
      s.connect env =
        RedisStorage.connectFresh { s with m_context := false } env) := by
  constructor
  · intro b s2 tr h hinv
    unfold RedisStorage.connect at h
    split at h
    · simp only [Option.some.injEq, Prod.mk.injEq] at h
      exact Or.inl (h.2.1 ▸ hinv)
    · split at h
      · rename_i hnc hi
        exact Or.inl (by simpa using hi)
      · split at h
        · split at h
          · simp only [Option.some.injEq, Prod.mk.injEq] at h
            obtain ⟨url, ct, ot, un, pw, ctx, conn, inv⟩ := s
            rw [← h.2.1] at hinv
            exact Or.inl hinv
          · have := connectFresh_invalid _ env b s2 tr h hinv
            obtain ⟨url, ct, ot, un, pw, ctx, conn, inv⟩ := s
            simpa using this
        · exact connectFresh_invalid s env b s2 tr h hinv
  · intro h1 h2 h3 h4
    simp [RedisStorage.connect, h1, h2, h3, h4]

/-- `freshRedis` holding a stale (broken) context. -/
def staleCtxRedis : RedisStorage :=
  { freshRedis with m_context := true }

/-- Witness for the amended C3 theorem: the failed connection attempt
of the counterexample is covered by the `ctxFailed` cause, and a failed
reconnect falls through to a fresh attempt. -/
theorem redis_invalid_causes_witness :
    (freshRedis.m_invalid = true ∨
      urlNoTarget freshRedis.m_url = true ∨ ctxFailed ctxErrEnv = true ∨
      (freshRedis.m_password.isSome = true ∧ authFailed ctxErrEnv = true)) ∧
    staleCtxRedis.connect benignEnv =
      RedisStorage.connectFresh { staleCtxRedis with m_context := false }
        benignEnv :=
  ⟨(redis_invalid_causes freshRedis ctxErrEnv).1 false ctxErrRedis []
      (by decide) rfl,
    (redis_invalid_causes staleCtxRedis benignEnv).2 rfl rfl rfl rfl⟩

/-- **C6**: with `only_if_missing` and an EXISTS reply reporting the
key present (a positive integer), `put` returns `false` and the issued
commands contain no SET at all (the stored value is untouched); with
`only_if_missing` false, or with an EXISTS count of zero (absent key),
a SET carrying the value is issued and a status reply makes `put`
return `true`. -/
theorem redis_put_only_if_missing (s s1 : RedisStorage) (tr : List Cmd)
    (d : Digest) (v : String) (env : ConnectEnv) (er sr : Option Reply)
    (hc : s.connect env = some (true, s1, tr)) :
    (∀ n : Int, er = some (Reply.replyInteger n) → 0 < n →
      s.put d v true env er sr =
        some (OpOutcome.ok false, s1,
          tr ++ [Cmd.existsCmd (s1.get_key_string d)]) ∧
      ∀ k val, Cmd.setCmd k val ∉
        tr ++ [Cmd.existsCmd (s1.get_key_string d)]) ∧
    (sr = some Reply.replyStatus →
      s.put d v false env er sr =
        some (OpOutcome.ok true, s1,
          tr ++ [Cmd.setCmd (s1.get_key_string d) v])) ∧
    (er = some (Reply.replyInteger 0) → sr = some Reply.replyStatus →
      s.put d v true env er sr =
        some (OpOutcome.ok true, s1,
          tr ++ [Cmd.existsCmd (s1.get_key_string d),
            Cmd.setCmd (s1.get_key_string d) v])) := by
  refine ⟨?_, ?_, ?_⟩
  · intro n her hn
    constructor
    · subst her
      simp [RedisStorage.put, RedisStorage.putBody, hc, existsCount, hn]
    · intro k val hmem
      rcases connect_trace s env true s1 tr hc with h1 | h1 <;> subst h1 <;>
        simp at hmem
  · intro hsr
    subst hsr
    simp [RedisStorage.put, RedisStorage.putBody, hc, RedisStorage.putSet]
  · intro her hsr
    subst her; subst hsr
    simp [RedisStorage.put, RedisStorage.putBody, hc, existsCount,
      RedisStorage.putSet]

/-- Witness for the C6 theorem at a concrete connected instance. -/
theorem redis_put_only_if_missing_witness :
    connectedRedis.put sampleDigest "value" true benignEnv
        (some (Reply.replyInteger 1)) (some Reply.replyStatus) =
      some (OpOutcome.ok false, connectedRedis,
        [] ++ [Cmd.existsCmd (connectedRedis.get_key_string sampleDigest)]) ∧
    Cmd.setCmd (connectedRedis.get_key_string sampleDigest) "value" ∉
      ([] : List Cmd) ++
        [Cmd.existsCmd (connectedRedis.get_key_string sampleDigest)] ∧
    connectedRedis.put sampleDigest "value" false benignEnv
        (some (Reply.replyInteger 1)) (some Reply.replyStatus) =
      some (OpOutcome.ok true, connectedRedis,
        [] ++ [Cmd.setCmd (connectedRedis.get_key_string sampleDigest)
          "value"]) :=
  have h := redis_put_only_if_missing connectedRedis connectedRedis []
    sampleDigest "value" benignEnv (some (Reply.replyInteger 1))
    (some Reply.replyStatus) (by decide)
  ⟨(h.1 1 rfl (by decide)).1, (h.1 1 rfl (by decide)).2 _ "value", h.2.1 rfl⟩

theorem mem_append_singleton {α : Type} {c x : α} {tr : List α}
    (h : c ∈ tr ++ [x]) : c ∈ tr ∨ c = x := by
  simpa using h

/-- After a successful connect, `get` sends exactly one GET, keyed by
`get_key_string`, whatever the reply is. -/
theorem getBody_trace (d : Digest) (reply : Option Reply) (m0 : Bool)
    (s1 : RedisStorage) (tr : List Cmd) :
    ∃ out, RedisStorage.getBody d reply m0 (true, s1, tr) =
      (out, s1, tr ++ [Cmd.getCmd (s1.get_key_string d)]) := by
  rcases reply with _ | r
  · cases m0 <;> exact ⟨_, rfl⟩
  · cases r
    case replyError msg => cases m0 <;> exact ⟨_, rfl⟩
    case replyString v => exact ⟨_, rfl⟩
    case replyNil => exact ⟨_, rfl⟩
    case replyInteger n => cases m0 <;> exact ⟨_, rfl⟩
    case replyStatus => cases m0 <;> exact ⟨_, rfl⟩
    case replyOther => cases m0 <;> exact ⟨_, rfl⟩

/-- After a successful connect, `remove` sends exactly one DEL, keyed by
`get_key_string`, whatever the reply is. -/
theorem removeBody_trace (d : Digest) (reply : Option Reply) (m0 : Bool)
    (s1 : RedisStorage) (tr : List Cmd) :
    ∃ out, RedisStorage.removeBody d reply m0 (true, s1, tr) =
      (out, s1, tr ++ [Cmd.delCmd (s1.get_key_string d)]) := by
  rcases reply with _ | r
  · cases m0 <;> exact ⟨_, rfl⟩
  · cases r
    case replyError msg => cases m0 <;> exact ⟨_, rfl⟩
    case replyString v => cases m0 <;> exact ⟨_, rfl⟩
    case replyNil => cases m0 <;> exact ⟨_, rfl⟩
    case replyInteger n =>
      by_cases hn : (0 : Int) < n
      · exact ⟨OpOutcome.ok true, by simp [RedisStorage.removeBody, hn]⟩
      · exact ⟨OpOutcome.ok false, by simp [RedisStorage.removeBody, hn]⟩
    case replyStatus => cases m0 <;> exact ⟨_, rfl⟩
    case replyOther => cases m0 <;> exact ⟨_, rfl⟩

theorem putSet_eq (s1 : RedisStorage) (key v : String) (sr : Option Reply)
    (tr : List Cmd) :
    ∃ out, RedisStorage.putSet s1 key v sr tr =
      (out, s1, tr ++ [Cmd.setCmd key v]) := by
  rcases sr with _ | r
  · exact ⟨_, rfl⟩
  · cases r <;> exact ⟨_, rfl⟩

/-- After a successful connect, `put` sends an EXISTS and/or a SET, all
keyed by `get_key_string`. -/
theorem putBody_trace (d : Digest) (v : String) (oim : Bool)
    (er sr : Option Reply) (s1 : RedisStorage) (tr : List Cmd) :
    ∃ out tr2, RedisStorage.putBody d v oim er sr (true, s1, tr) =
      (out, s1, tr2) ∧
      (tr2 = tr ++ [Cmd.existsCmd (s1.get_key_string d)] ∨
       tr2 = (tr ++ [Cmd.existsCmd (s1.get_key_string d)]) ++
         [Cmd.setCmd (s1.get_key_string d) v] ∨
       tr2 = tr ++ [Cmd.setCmd (s1.get_key_string d) v]) := by
  cases oim with
  | false =>
    obtain ⟨out, hps⟩ := putSet_eq s1 (s1.get_key_string d) v sr tr
    exact ⟨out, _, hps, Or.inr (Or.inr rfl)⟩
  | true =>
    by_cases hn : (0 : Int) < existsCount er
    · refine ⟨OpOutcome.ok false, _, ?_, Or.inl rfl⟩
      show (if (0 : Int) < existsCount er then
          (OpOutcome.ok false, s1,
            tr ++ [Cmd.existsCmd (s1.get_key_string d)])
        else RedisStorage.putSet s1 (s1.get_key_string d) v sr
          (tr ++ [Cmd.existsCmd (s1.get_key_string d)])) = _
      rw [if_pos hn]
    · obtain ⟨out, hps⟩ := putSet_eq s1 (s1.get_key_string d) v sr
        (tr ++ [Cmd.existsCmd (s1.get_key_string d)])
      refine ⟨out, _, ?_, Or.inr (Or.inl rfl)⟩
      show (if (0 : Int) < existsCount er then
          (OpOutcome.ok false, s1,
            tr ++ [Cmd.existsCmd (s1.get_key_string d)])
        else RedisStorage.putSet s1 (s1.get_key_string d) v sr
          (tr ++ [Cmd.existsCmd (s1.get_key_string d)])) = _
      rw [if_neg hn, hps]

/-- **C9**: the key string is exactly the namespace `ccache`, a colon,
and the canonical hex form of the digest, and every keyed command that
`get`, `put` and `remove` send to the backend carries exactly this one
key string. -/
theorem redis_key_string_namespaced (s : RedisStorage) (d : Digest)
    (env : ConnectEnv) (reply er sr : Option Reply) (m0 oim : Bool)
    (v : String) :
    s.get_key_string d = "ccache" ++ ":" ++ Util.format_base16 d.bytes ∧
    (∀ out s1 tr, s.get d env reply m0 = some (out, s1, tr) →
      ∀ c ∈ tr, ∀ k, c.keyOf = some k → k = s.get_key_string d) ∧
    (∀ out s1 tr, s.put d v oim env er sr = some (out, s1, tr) →
      ∀ c ∈ tr, ∀ k, c.keyOf = some k → k = s.get_key_string d) ∧
    (∀ out s1 tr, s.remove d env reply m0 = some (out, s1, tr) →
      ∀ c ∈ tr, ∀ k, c.keyOf = some k → k = s.get_key_string d) := by
  refine ⟨rfl, ?_, ?_, ?_⟩
  · intro out s1 tr h c hmem k hk
    rw [RedisStorage.get] at h
    rcases hc : s.connect env with _ | ⟨b, s1c, trc⟩
    · rw [hc] at h
      exact Option.noConfusion h
    · rw [hc, Option.map_some'] at h
      cases b with
      | false =>
        have hb : RedisStorage.getBody d reply m0 (false, s1c, trc) =
            (GetOutcome.backendError, s1c, trc) := rfl
        rw [hb] at h
        simp only [Option.some.injEq, Prod.mk.injEq] at h
        obtain ⟨-, -, htr⟩ := h
        subst htr
        rw [connect_trace_keyOf s env false s1c trc hc c hmem] at hk
        exact Option.noConfusion hk
      | true =>
        obtain ⟨out2, hb⟩ := getBody_trace d reply m0 s1c trc
        rw [hb] at h
        simp only [Option.some.injEq, Prod.mk.injEq] at h
        obtain ⟨-, -, htr⟩ := h
        subst htr
        rcases mem_append_singleton hmem with hm | hm
        · rw [connect_trace_keyOf s env true s1c trc hc c hm] at hk
          exact Option.noConfusion hk
        · subst hm
          simp only [Cmd.keyOf, Option.some.injEq] at hk
          exact hk.symm
  · intro out s1 tr h c hmem k hk
    rw [RedisStorage.put] at h
    rcases hc : s.connect env with _ | ⟨b, s1c, trc⟩
    · rw [hc] at h
      exact Option.noConfusion h
    · rw [hc, Option.map_some'] at h
      cases b with
      | false =>
        have hb : RedisStorage.putBody d v oim er sr (false, s1c, trc) =
            (OpOutcome.backendError, s1c, trc) := rfl
        rw [hb] at h
        simp only [Option.some.injEq, Prod.mk.injEq] at h
        obtain ⟨-, -, htr⟩ := h
        subst htr
        rw [connect_trace_keyOf s env false s1c trc hc c hmem] at hk
        exact Option.noConfusion hk
      | true =>
        obtain ⟨out2, tr2, hb, hshape⟩ := putBody_trace d v oim er sr s1c trc
        rw [hb] at h
        simp only [Option.some.injEq, Prod.mk.injEq] at h
        obtain ⟨-, -, htr⟩ := h
        subst htr
        rcases hshape with hsh | hsh | hsh <;> subst hsh
        · rcases mem_append_singleton hmem with hm | hm
          · rw [connect_trace_keyOf s env true s1c trc hc c hm] at hk
            exact Option.noConfusion hk
          · subst hm
            simp only [Cmd.keyOf, Option.some.injEq] at hk
            exact hk.symm
        · rcases mem_append_singleton hmem with hm | hm
          · rcases mem_append_singleton hm with hm2 | hm2
            · rw [connect_trace_keyOf s env true s1c trc hc c hm2] at hk
              exact Option.noConfusion hk
            · subst hm2
              simp only [Cmd.keyOf, Option.some.injEq] at hk
              exact hk.symm
          · subst hm
            simp only [Cmd.keyOf, Option.some.injEq] at hk
            exact hk.symm
        · rcases mem_append_singleton hmem with hm | hm
          · rw [connect_trace_keyOf s env true s1c trc hc c hm] at hk
            exact Option.noConfusion hk
          · subst hm
            simp only [Cmd.keyOf, Option.some.injEq] at hk
            exact hk.symm
  · intro out s1 tr h c hmem k hk
    rw [RedisStorage.remove] at h
    rcases hc : s.connect env with _ | ⟨b, s1c, trc⟩
    · rw [hc] at h
      exact Option.noConfusion h
    · rw [hc, Option.map_some'] at h
      cases b with
      | false =>
        have hb : RedisStorage.removeBody d reply m0 (false, s1c, trc) =
            (OpOutcome.backendError, s1c, trc) := rfl
        rw [hb] at h
        simp only [Option.some.injEq, Prod.mk.injEq] at h
        obtain ⟨-, -, htr⟩ := h
        subst htr
        rw [connect_trace_keyOf s env false s1c trc hc c hmem] at hk
        exact Option.noConfusion hk
      | true =>
        obtain ⟨out2, hb⟩ := removeBody_trace d reply m0 s1c trc
        rw [hb] at h
        simp only [Option.some.injEq, Prod.mk.injEq] at h
        obtain ⟨-, -, htr⟩ := h
        subst htr
        rcases mem_append_singleton hmem with hm | hm
        · rw [connect_trace_keyOf s env true s1c trc hc c hm] at hk
          exact Option.noConfusion hk
        · subst hm
          simp only [Cmd.keyOf, Option.some.injEq] at hk
          exact hk.symm

/-- A disconnected, valid, contextless instance whose URL yields
neither host nor socket enters the invalid state on `connect()`. -/
theorem connect_urlNoTarget (s : RedisStorage) (env : ConnectEnv)
    (h1 : s.m_connected = false) (h2 : s.m_invalid = false)
    (h3 : s.m_context = false)
    (hsw : Util.starts_with s.m_url "redis://" = true)
    (hnt : urlNoTarget s.m_url = true) :
    s.connect env = some (false, { s with m_invalid := true }, []) := by
  rw [urlNoTarget, Bool.and_eq_true, beq_iff_eq, beq_iff_eq] at hnt
  obtain ⟨hhost, hsock⟩ := hnt
  rw [RedisStorage.connect, if_neg (by simp [h1]), if_neg (by simp [h2]),
    if_neg (by simp [h3])]
  simp [RedisStorage.connectFresh, hsw, hhost, hsock]

/-- **C7** (counterexample): construction performs no validation at
all. An attribute map carrying the unrecognized key `foo` is accepted
(not rejected as InvalidConfig), an unparsable URL (`redis://:`, no
host and no socket) is accepted, and the bad URL is detected only
during the first `get` call — at call time, not at construction. -/
theorem redis_no_fail_fast_counterexample :
    RedisStorage.construct "redis://:" [("foo", "bar")] = some badUrlRedis ∧
    badUrlRedis.m_invalid = false ∧
    badUrlRedis.get sampleDigest benignEnv none false =
      some (GetOutcome.backendError, invalidRedis, []) ∧
    invalidRedis.m_invalid = true := by
  refine ⟨by decide, rfl, by decide, rfl⟩

/-- **C7** (amended): construction stores the four recognized
attributes and silently ignores an unrecognized key (construction is
insensitive to it; no InvalidConfig is raised in this class), and the
URL is not examined at construction: an unparsable URL is detected at
the first `get`/`put`/`remove` call, which marks the instance invalid
and returns backend-error. -/
theorem redis_construct_lazy_validation (url : String)
    (attributes : AttributeMap) (k v : String)
    (hk1 : k ≠ "connect-timeout") (hk2 : k ≠ "operation-timeout")
    (hk3 : k ≠ "username") (hk4 : k ≠ "password") :
    RedisStorage.construct url ((k, v) :: attributes) =
      RedisStorage.construct url attributes ∧
    (∀ st, RedisStorage.construct url attributes = some st →
      Util.starts_with url "redis://" = true → urlNoTarget url = true →
      ∀ env d reply m0,
        st.get d env reply m0 =
          some (GetOutcome.backendError, { st with m_invalid := true },
            [])) := by
  constructor
  · simp [RedisStorage.construct, parse_connect_timeout,
      parse_operation_timeout, parse_username, parse_password, findAttrib,
      hk1, hk2, hk3, hk4]
  · intro st hst hsw hnt env d reply m0
    rw [RedisStorage.construct] at hst
    rcases hct : parse_connect_timeout attributes with _ | ct
    · rw [hct] at hst
      simp at hst
    rcases hot : parse_operation_timeout attributes with _ | ot
    · rw [hct, hot] at hst
      simp at hst
    rw [hct, hot] at hst
    simp at hst
    subst hst
    have hcon := connect_urlNoTarget
      { m_url := url, m_connect_timeout := ct, m_operation_timeout := ot,
        m_username := parse_username attributes,
        m_password := parse_password attributes, m_context := false,
        m_connected := false, m_invalid := false } env rfl rfl rfl hsw hnt
    rw [RedisStorage.get, hcon, Option.map_some']
    rfl

/-- Witness for the amended C7 theorem at the concrete inputs of the
counterexample. -/
theorem redis_construct_lazy_validation_witness :
    RedisStorage.construct "redis://:" [("foo", "bar")] =
      RedisStorage.construct "redis://:" [] ∧
    badUrlRedis.get sampleDigest benignEnv none false =
      some (GetOutcome.backendError, { badUrlRedis with m_invalid := true },
        []) :=
  have h := redis_construct_lazy_validation "redis://:" [] "foo" "bar"
    (by decide) (by decide) (by decide) (by decide)
  ⟨h.1, h.2 badUrlRedis (by decide) (by decide) (by decide) benignEnv
    sampleDigest none false⟩

/-- Witness for the C9 theorem: at a concrete connected instance and a
concrete digest, the GET command carries exactly the namespaced key. -/
theorem redis_key_string_namespaced_witness :
    Cmd.getCmd (connectedRedis.get_key_string sampleDigest) ∈
      ([] : List Cmd) ++
        [Cmd.getCmd (connectedRedis.get_key_string sampleDigest)] ∧
    connectedRedis.get_key_string sampleDigest =
      "ccache" ++ ":" ++ Util.format_base16 sampleDigest.bytes ∧
    "ccache" ++ ":" ++ Util.format_base16 sampleDigest.bytes =
      connectedRedis.get_key_string sampleDigest :=
  have h := redis_key_string_namespaced connectedRedis sampleDigest benignEnv
    (some Reply.replyNil) none none false false ""
  have hmem : Cmd.getCmd (connectedRedis.get_key_string sampleDigest) ∈
      ([] : List Cmd) ++
        [Cmd.getCmd (connectedRedis.get_key_string sampleDigest)] := by
    simp
  ⟨hmem, h.1,
    h.2.1 GetOutcome.notFound connectedRedis
      ([] ++ [Cmd.getCmd (connectedRedis.get_key_string sampleDigest)])
      (by decide)
      (Cmd.getCmd (connectedRedis.get_key_string sampleDigest)) hmem
      ("ccache" ++ ":" ++ Util.format_base16 sampleDigest.bytes)
      (by decide)⟩
